import Mathlib

/-!
Shallow embedding of the `plugin.video.gabtv` scraper
(`resources/lib/webscraper.py`): the thumbnail cache (`download_fanart`,
`sorted_ls`), the catalog item mapper (`__map_videos`) and stream URL
resolution (`retrieve_video_url`, `kodi_header`).

The on-disk cache directory is modelled as a list of (filename, mtime)
pairs in directory-listing order together with a strictly increasing
mtime clock; the network (`requests.get`) is modelled as a function from
URLs to responses.  Python slices, `os.path.splitext` and
`urllib.parse.quote` are embedded with their exact semantics on the
inputs that occur here.
-/

/-- Characters of Python `s.split('/')` on a character list: split at
every `'/'`, keeping empty segments; the result is always nonempty. -/
def splitSlashChars : List Char → List (List Char)
  | [] => [[]]
  | c :: rest =>
    if c = '/' then [] :: splitSlashChars rest
    else
      match splitSlashChars rest with
      | [] => [[c]]
      | h :: t => (c :: h) :: t

/-- Python `s.split('/')` on a string (same behaviour as
`String.splitOn "/"`, but structurally recursive). -/
def pySplit (s : String) : List String :=
  (splitSlashChars s.data).map (fun l => ⟨l⟩)

/-- An HTTP response as seen by `download_fanart`: the optional
Content-Type header (absent models the `KeyError` case of the `try`
block) and the body bytes, abstracted as a string. -/
structure Response where
  contentType : Option String
  content : String
deriving DecidableEq

/-- The thumbnail cache directory: files as (name, mtime) pairs in
directory-listing order, plus a clock supplying strictly increasing
mtimes for new writes. -/
structure CacheState where
  files : List (String × Nat)
  clock : Nat
deriving DecidableEq

/-- End index of the Python slice `l[0:e]` on a list of length `len`: a
negative `e` counts from the end of the list, and the result is clamped
into `[0, len]`. -/
def pySliceEnd (len : Nat) (e : Int) : Nat :=
  if e < 0 then ((len : Int) + e).toNat else min e.toNat len

/-- Python `l[0:e]` with an arbitrary (possibly negative) end index. -/
def pyTake (l : List α) (e : Int) : List α :=
  l.take (pySliceEnd l.length e)

/-- Helper for `os.path.splitext` on a bare filename, working on the
reversed character list: drop characters up to and including the first
`'.'` (the last dot of the original name); `none` when there is no dot. -/
def revDropExt : List Char → Option (List Char)
  | [] => none
  | c :: rest => if c = '.' then some rest else revDropExt rest

/-- Root part of Python `os.path.splitext(s)[0]` for a bare filename (no
directory separators): everything before the last `'.'`, unless every
character before that dot is itself a dot (then the name is returned
unchanged). -/
def splitextRoot (s : String) : String :=
  match revDropExt s.data.reverse with
  | none => s
  | some r => if r.all (fun c => c = '.') then s else ⟨r.reverse⟩

/-- Model of `sorted_ls` (webscraper.py lines 143-145): the directory
listing sorted by ascending modification time.  Python's `sorted` is
stable, as is `List.insertionSort` (which, unlike `List.mergeSort`, is
structurally recursive and so evaluates inside the kernel). -/
def sorted_ls (files : List (String × Nat)) : List (String × Nat) :=
  files.insertionSort (fun a b => a.2 ≤ b.2)

/-- Model of `os.path.join` for the relative components used here. -/
def pathJoin (a b : String) : String :=
  a ++ "/" ++ b

/-- Extension inference inside `download_fanart` (lines 164-167): the
final `'/'`-separated segment of the Content-Type header; `"apng"` when
the header is absent (the `except` branch).  `pySplit` always returns a
nonempty list, so the `getLastD` default is never used. -/
def inferExtension (r : Response) : String :=
  match r.contentType with
  | none => "apng"
  | some ct => (pySplit ct).getLastD ""

/-- Eviction step of `download_fanart` (lines 176-179):
`del_list = sorted_ls(path)[0:(len(sorted_ls(path)) - max_Files)]`, then
`os.remove` each listed file.  `max_Files` is
`int(get_setting('cache_size'))`. -/
def evict (max_Files : Int) (files : List (String × Nat)) : List (String × Nat) :=
  let del_list := pyTake (sorted_ls files) (((sorted_ls files).length : Int) - max_Files)
  files.filter (fun f => !del_list.any (fun d => d.1 = f.1))

/-- Model of `download_fanart` (webscraper.py lines 148-181).  `fetch`
models `requests.get`; `max_Files` is the configured `cache_size`;
`addon_dir` is the translated addon path.  Returns the resolved local
filename, the new cache state, and whether a network fetch happened.
Writing the response body is modelled as replacing any file of the same
name and appending the new file with the current clock as its mtime. -/
def download_fanart (fetch : String → Response) (max_Files : Int) (addon_dir : String)
    (url : String) (st : CacheState) : String × CacheState × Bool :=
  let key := (pySplit url).getLastD ""
  let path := pathJoin (pathJoin addon_dir "resources") "thumbnails"
  match st.files.find? (fun s => splitextRoot s.1 = "gabtv_" ++ key) with
  | some s =>
    (pathJoin path s.1, ⟨evict max_Files st.files, st.clock⟩, false)
  | none =>
    let response := fetch url
    let extension := inferExtension response
    let name := "gabtv_" ++ key ++ "." ++ extension
    let written := st.files.filter (fun f => f.1 ≠ name) ++ [(name, st.clock)]
    (pathJoin path name, ⟨evict max_Files written, st.clock + 1⟩, true)

/-- A sequence of `download_fanart` calls, threading the cache state. -/
def runCalls (fetch : String → Response) (max_Files : Int) (addon_dir : String)
    (urls : List String) (st : CacheState) : CacheState :=
  urls.foldl (fun s u => (download_fanart fetch max_Files addon_dir u s).2.1) st

/-- Navigation target built by `url_for`; modelled from the spec: the
"opaque route reference" is the route name together with its parameters. -/
inductive Route where
  | categories (category : String)
  | play_video (channel : String) (view : String)
deriving DecidableEq

/-- Modelled from the spec: `helperobjects.TitleItem` is not among the
scraper sources; per the spec's CatalogItem it is an immutable record of
the constructor arguments used at the call sites (label, navigation
target, artwork dict, optional info dict with a plot string, playability
flag). -/
structure TitleItem where
  label : String
  path : Route
  art_dict : List (String × String)
  info_dict : Option String
  is_playable : Bool
deriving DecidableEq

/-- Model of `__map_videos` (webscraper.py lines 119-140) on the zipped
triples `zip(titles, video_urls, art_urls)`: for each triple extract
channel and view as slash-separated segments 2 and 4 of the navigation
reference (`none` models the `IndexError` when a segment is missing),
resolve the artwork through `download_fanart` (threading the cache
state), and build the `TitleItem`. -/
def __map_videos (fetch : String → Response) (max_Files : Int) (addon_dir : String) :
    List (String × String × String) → CacheState → Option (List TitleItem × CacheState)
  | [], st => some ([], st)
  | (title, video_url, art_url) :: rest, st =>
    match (pySplit video_url)[2]?, (pySplit video_url)[4]? with
    | some channel, some view =>
      let r := download_fanart fetch max_Files addon_dir art_url st
      match __map_videos fetch max_Files addon_dir rest r.2.1 with
      | some (items, st') =>
        some (⟨title, Route.play_video channel view,
          [("thumb", r.1), ("fanart", r.1), ("icon", r.1)],
          some ("Title: " ++ title ++ "\nChannel: " ++ channel), true⟩ :: items, st')
      | none => none
    | _, _ => none

/-- Entry point of `__map_videos`: Python's `zip` truncates to the
shortest of the three parallel sequences. -/
def mapVideos (fetch : String → Response) (max_Files : Int) (addon_dir : String)
    (titles video_urls art_urls : List String) (st : CacheState) :
    Option (List TitleItem × CacheState) :=
  __map_videos fetch max_Files addon_dir (titles.zip (video_urls.zip art_urls)) st

/-- Uppercase hexadecimal digit for percent-encoding. -/
def hexDigit (n : Nat) : Char :=
  if n < 10 then Char.ofNat (48 + n) else Char.ofNat (55 + n)

/-- UTF-8 encoding of one character as its list of byte values. -/
def utf8Bytes (c : Char) : List Nat :=
  let n := c.toNat
  if n < 128 then [n]
  else if n < 2048 then [192 + n / 64, 128 + n % 64]
  else if n < 65536 then [224 + n / 4096, 128 + (n / 64) % 64, 128 + n % 64]
  else [240 + n / 262144, 128 + (n / 4096) % 64, 128 + (n / 64) % 64, 128 + n % 64]

/-- Percent-encoding of one byte: `%XX` with uppercase hex digits. -/
def percentByte (b : Nat) : String :=
  ⟨['%', hexDigit (b / 16 % 16), hexDigit (b % 16)]⟩

/-- Python `urllib.parse.quote` with its default `safe='/'`: ASCII
letters, digits and `_.-~/` pass through; every other character is
percent-encoded byte-wise in UTF-8. -/
def pyQuote (s : String) : String :=
  s.data.foldl (fun acc c =>
    if c.isAlphanum ∨ c ∈ ['_', '.', '-', '~', '/'] then acc.push c
    else acc ++ String.join ((utf8Bytes c).map percentByte)) ""

/-- Python `urllib.parse.quote_plus` as used by `urlencode`: no safe
characters beyond the always-safe set, and space encoded as `+`. -/
def pyQuotePlus (s : String) : String :=
  s.data.foldl (fun acc c =>
    if c = ' ' then acc.push '+'
    else if c.isAlphanum ∨ c ∈ ['_', '.', '-', '~'] then acc.push c
    else acc ++ String.join ((utf8Bytes c).map percentByte)) ""

/-- Python `urllib.parse.urlencode` on a mapping, given as a list of
key/value pairs: `k=v` pairs joined by `&`, both sides quote_plus-encoded. -/
def urlencode (l : List (String × String)) : String :=
  String.intercalate "&" (l.map (fun kv => pyQuotePlus kv.1 ++ "=" ++ pyQuotePlus kv.2))

/-- Model of `kodi_header` (webscraper.py lines 21-27); the session's
cookie jar and header mapping are explicit parameters.  The cookies are
joined as `k=v;` pairs, the trailing semicolon dropped, and the result
is `'|' + 'Cookie=' + quote(header) + '&' + urlencode(session.headers)`. -/
def kodi_header (cookies session_headers : List (String × String)) : String :=
  let header := cookies.foldl (fun acc kv => acc ++ kv.1 ++ "=" ++ kv.2 ++ ";") ""
  let header := header.dropRight 1
  "|" ++ "Cookie=" ++ pyQuote header ++ "&" ++ urlencode session_headers

/-- Model of `retrieve_video_url` (webscraper.py lines 107-116): `media`
and `view_key` are the values scraped from the detail page's `og:video`
meta tag and the studio-player's `data-view-key` attribute; the session
state feeds `kodi_header`. -/
def retrieve_video_url (media view_key : String)
    (cookies session_headers : List (String × String)) : String :=
  let resolution := "1080p"
  media ++ "?viewKey=" ++ view_key ++ "&r=" ++ resolution ++ kodi_header cookies session_headers

/-- A network stub returning a PNG response for every URL, used for
concrete evaluations. -/
def fetchPng : String → Response :=
  fun _ => ⟨some "image/png", "body"⟩

/-- The mtime comparison used by `sorted_ls` is total. -/
instance : IsTotal (String × Nat) (fun a b => a.2 ≤ b.2) :=
  ⟨fun a b => Nat.le_total a.2 b.2⟩

/-- The mtime comparison used by `sorted_ls` is transitive. -/
instance : IsTrans (String × Nat) (fun a b => a.2 ≤ b.2) :=
  ⟨fun _ _ _ => Nat.le_trans⟩

theorem sorted_ls_perm (files : List (String × Nat)) :
    List.Perm (sorted_ls files) files :=
  List.perm_insertionSort _ files

theorem sorted_ls_length (files : List (String × Nat)) :
    (sorted_ls files).length = files.length :=
  (sorted_ls_perm files).length_eq

theorem mem_sorted_ls {f : String × Nat} {files : List (String × Nat)} :
    f ∈ sorted_ls files ↔ f ∈ files :=
  (sorted_ls_perm files).mem_iff

theorem sorted_ls_pairwise (files : List (String × Nat)) :
    (sorted_ls files).Pairwise (fun a b => a.2 ≤ b.2) :=
  List.sorted_insertionSort _ files

theorem evict_eq_self (max_Files : Int) (files : List (String × Nat))
    (h : (files.length : Int) = max_Files ∨ 2 * (files.length : Int) ≤ max_Files) :
    evict max_Files files = files := by
  have hend : pySliceEnd (sorted_ls files).length
      (((sorted_ls files).length : Int) - max_Files) = 0 := by
    unfold pySliceEnd
    rw [sorted_ls_length]
    rcases h with h | h
    · split <;> omega
    · split <;> omega
  simp [evict, pyTake, hend]

/-- C1 (code bug): with cache_size = 3, four `download_fanart` calls with
pairwise-distinct URLs (and distinct cache keys) starting from an empty
cache leave exactly one file in the directory, not three: the Python
slice `sorted_ls(path)[0:(len - max_Files)]` has a negative end index
while the directory is still below the bound, which deletes the oldest
files instead of nothing. -/
theorem C1_cache_bound_violated_at_size_three :
    (runCalls fetchPng 3 "addon" ["u/a", "u/b", "u/c", "u/d"] ⟨[], 0⟩).files =
      [("gabtv_d.png", 3)] := by
  decide

/-- C2 (code bug): a cache directory with 3 files and cache_size = 4 is
within the bound, yet the eviction step deletes the two oldest files:
the slice end `3 - 4 = -1` denotes `len - 1` in Python, not an empty
slice. -/
theorem C2_eviction_deletes_below_bound :
    [("a", 0), ("b", 1), ("c", 2)].length ≤ 4 ∧
      evict 4 [("a", 0), ("b", 1), ("c", 2)] = [("c", 2)] := by
  decide

/-- C3 (counterexample): with cache_size = 0 the deletion list is not
empty — it is the whole directory listing, so the single cached file is
deleted rather than retained. -/
theorem C3_counterexample_zero_cache_size :
    evict 0 [("a", 0)] = [] ∧ [(("a" : String), (0 : Nat))] ≠ [] := by
  decide

/-- C3 (amended): if cache_size is 0 or negative, the slice end
`count - cache_size` is at least `count`, so the deletion list is the
entire directory listing and every call deletes all files in the cache
directory (the cache stays empty; it does not grow without bound). -/
theorem C3_nonpositive_cache_size_deletes_everything (max_Files : Int)
    (files : List (String × Nat)) (h : max_Files ≤ 0) :
    evict max_Files files = [] := by
  have hend : pySliceEnd (sorted_ls files).length
      (((sorted_ls files).length : Int) - max_Files) = (sorted_ls files).length := by
    unfold pySliceEnd
    split <;> omega
  simp only [evict, pyTake, hend, List.take_length]
  rw [List.filter_eq_nil_iff]
  intro f hf
  simp only [Bool.not_eq_true', Bool.not_eq_false, List.any_eq_true]
  exact ⟨f, mem_sorted_ls.mpr hf, by simp⟩

theorem C3_nonpositive_cache_size_deletes_everything_witness :
    evict (-2) [("a", 0), ("b", 5)] = [] :=
  C3_nonpositive_cache_size_deletes_everything (-2) [("a", 0), ("b", 5)] (by decide)

/-- C5 (counterexample): with cache_size = 0 two successive calls with
the same URL both perform a network fetch — the file written by the
first call is deleted by that call's own eviction step, so the second
call misses. -/
theorem C5_counterexample_zero_cache_size :
    (download_fanart fetchPng 0 "addon" "u/k" ⟨[], 0⟩).2.2 = true ∧
    (download_fanart fetchPng 0 "addon" "u/k"
      (download_fanart fetchPng 0 "addon" "u/k" ⟨[], 0⟩).2.1).2.2 = true := by
  decide

/-- C7 (counterexample): a navigation reference with fewer than five
slash-separated segments makes `__map_videos` fail (IndexError in the
source), so a 1-element input yields no list of items at all. -/
theorem C7_counterexample_short_reference :
    mapVideos fetchPng 5 "addon" ["t"] ["x"] ["a"] ⟨[], 0⟩ = none := by
  decide

/-- C9 (counterexample): a malformed (slash-free) Content-Type header
does not fall back to the default extension: the inferred extension is
the whole header value, not `"apng"`. -/
theorem C9_counterexample_malformed_content_type :
    inferExtension ⟨some "undefined", ""⟩ = "undefined" ∧ "undefined" ≠ "apng" := by
  decide

/-- C9 (amended): extension inference is total and never fails, and a
write always produces `{prefix}{key}.{extension}` — but the `"apng"`
fallback applies only when the Content-Type header is absent; when the
header is present (malformed or not) the extension is its final
slash-separated segment. -/
theorem C9_extension_inference_total (r : Response) (fetch : String → Response)
    (max_Files : Int) (addon_dir url : String) (st : CacheState) :
    (r.contentType = none → inferExtension r = "apng") ∧
    (∀ ct, r.contentType = some ct → inferExtension r = (pySplit ct).getLastD "") ∧
    ((st.files.find? (fun s => splitextRoot s.1 = "gabtv_" ++ (pySplit url).getLastD "")) = none →
      (download_fanart fetch max_Files addon_dir url st).1 =
        pathJoin (pathJoin (pathJoin addon_dir "resources") "thumbnails")
          ("gabtv_" ++ (pySplit url).getLastD "" ++ "." ++ inferExtension (fetch url))) := by
  refine ⟨fun h => by simp [inferExtension, h], fun ct h => by simp [inferExtension, h], fun h => ?_⟩
  simp only [List.getLastD_eq_getLast?] at h
  simp [download_fanart, h]

theorem C9_extension_inference_total_witness :
    inferExtension ⟨none, ""⟩ = "apng" ∧
    (download_fanart fetchPng 0 "addon" "u/k" ⟨[], 0⟩).1 =
      pathJoin (pathJoin (pathJoin "addon" "resources") "thumbnails")
        ("gabtv_" ++ (pySplit "u/k").getLastD "" ++ "." ++ inferExtension (fetchPng "u/k")) :=
  ⟨(C9_extension_inference_total ⟨none, ""⟩ fetchPng 0 "addon" "u/k" ⟨[], 0⟩).1 rfl,
   (C9_extension_inference_total ⟨none, ""⟩ fetchPng 0 "addon" "u/k" ⟨[], 0⟩).2.2 (by decide)⟩

/-- C6: with media URL `https://cdn/video`, view key `abc123`, the
hardcoded 1080p resolution, a session holding exactly the cookie `a=1`
and no headers, the resolved stream URL is exactly the spec's literal,
including the `|` separator and the percent-encoded cookie. -/
theorem C6_stream_url_composition :
    retrieve_video_url "https://cdn/video" "abc123" [("a", "1")] [] =
      "https://cdn/video?viewKey=abc123&r=1080p|Cookie=a%3D1&" := by
  decide

/-- C10: the resolution component of every resolved stream URL is the
hardcoded constant `1080p`: whatever the scraped media URL, view key and
session state, the result contains `&r=1080p`. -/
theorem C10_resolution_hardcoded_1080p (media view_key : String)
    (cookies session_headers : List (String × String)) :
    ∃ a b, retrieve_video_url media view_key cookies session_headers =
      a ++ "&r=1080p" ++ b := by
  refine ⟨media ++ "?viewKey=" ++ view_key, kodi_header cookies session_headers, ?_⟩
  simp only [retrieve_video_url]
  rw [show ("&r=1080p" : String) = "&r=" ++ "1080p" from rfl]
  simp [String.append_assoc]

/-- C4 (counterexample): a cache hit does not leave the directory
unchanged in general: with cache_size = 1 and two cached files, a call
hitting `gabtv_k.png` performs no fetch but still runs the eviction
step, which deletes the oldest file — the hit file itself. -/
theorem C4_counterexample_hit_deletes :
    (download_fanart fetchPng 1 "addon" "u/k"
      ⟨[("gabtv_k.png", 0), ("gabtv_j.png", 1)], 2⟩).2.2 = false ∧
    (download_fanart fetchPng 1 "addon" "u/k"
      ⟨[("gabtv_k.png", 0), ("gabtv_j.png", 1)], 2⟩).2.1.files = [("gabtv_j.png", 1)] := by
  decide

/-- C4 (amended): the eviction step runs after every call, cache hits
included; a hit performs no network fetch, and it leaves the cache
directory unchanged only when the deletion slice is empty — in
particular when the file count equals cache_size, or is at most half of
it — not unconditionally. -/
theorem C4_hit_no_fetch_preserved_when_slice_empty (fetch : String → Response)
    (max_Files : Int) (addon_dir url : String) (st : CacheState)
    (hhit : ∃ s ∈ st.files, splitextRoot s.1 = "gabtv_" ++ (pySplit url).getLastD "")
    (hsize : (st.files.length : Int) = max_Files ∨ 2 * (st.files.length : Int) ≤ max_Files) :
    (download_fanart fetch max_Files addon_dir url st).2.2 = false ∧
    (download_fanart fetch max_Files addon_dir url st).2.1 = st := by
  obtain ⟨s, hs, hroot⟩ := hhit
  have hfind : (st.files.find?
      (fun s => splitextRoot s.1 = "gabtv_" ++ (pySplit url).getLastD "")).isSome := by
    rw [List.find?_isSome]
    exact ⟨s, hs, by simp [hroot]⟩
  obtain ⟨f, hf⟩ := Option.isSome_iff_exists.mp hfind
  refine ⟨?_, ?_⟩ <;> simp only [download_fanart, hf]
  rw [evict_eq_self _ _ hsize]

theorem C4_hit_no_fetch_preserved_when_slice_empty_witness :
    (download_fanart fetchPng 1 "addon" "u/k" ⟨[("gabtv_k.png", 0)], 1⟩).2.2 = false ∧
    (download_fanart fetchPng 1 "addon" "u/k" ⟨[("gabtv_k.png", 0)], 1⟩).2.1 =
      ⟨[("gabtv_k.png", 0)], 1⟩ :=
  C4_hit_no_fetch_preserved_when_slice_empty fetchPng 1 "addon" "u/k"
    ⟨[("gabtv_k.png", 0)], 1⟩ ⟨("gabtv_k.png", 0), by decide, by decide⟩ (Or.inl (by decide))

/-- C8: for every navigation reference with at least five
slash-separated segments, the mapper extracts the channel as the
segment at index 2 and the view as the segment at index 4 (0-indexed)
and stores them in the produced item's play_video route. -/
theorem C8_channel_view_extraction (fetch : String → Response) (max_Files : Int)
    (addon_dir : String) (title video_url art_url : String) (st : CacheState)
    (hwf : 5 ≤ (pySplit video_url).length) :
    mapVideos fetch max_Files addon_dir [title] [video_url] [art_url] st =
      some ([⟨title,
        Route.play_video ((pySplit video_url).getD 2 "") ((pySplit video_url).getD 4 ""),
        [("thumb", (download_fanart fetch max_Files addon_dir art_url st).1),
         ("fanart", (download_fanart fetch max_Files addon_dir art_url st).1),
         ("icon", (download_fanart fetch max_Files addon_dir art_url st).1)],
        some ("Title: " ++ title ++ "\nChannel: " ++ (pySplit video_url).getD 2 ""), true⟩],
        (download_fanart fetch max_Files addon_dir art_url st).2.1) := by
  have h2 : (pySplit video_url)[2]? = some ((pySplit video_url).getD 2 "") := by
    rw [List.getElem?_eq_getElem (by omega)]
    rw [List.getD_eq_getElem?_getD, List.getElem?_eq_getElem (by omega)]
    rfl
  have h4 : (pySplit video_url)[4]? = some ((pySplit video_url).getD 4 "") := by
    rw [List.getElem?_eq_getElem (by omega)]
    rw [List.getD_eq_getElem?_getD, List.getElem?_eq_getElem (by omega)]
    rfl
  simp only [mapVideos, List.zip_cons_cons, List.zip_nil_right, List.zip_nil_left]
  simp only [__map_videos, h2, h4]

theorem C8_channel_view_extraction_witness :
    mapVideos fetchPng 1 "addon" ["t"] ["/watch/CHAN42/view/V99/extra"] ["a"] ⟨[], 0⟩ =
      some ([⟨"t", Route.play_video "CHAN42" "V99",
        [("thumb", "addon/resources/thumbnails/gabtv_a.png"),
         ("fanart", "addon/resources/thumbnails/gabtv_a.png"),
         ("icon", "addon/resources/thumbnails/gabtv_a.png")],
        some "Title: t\nChannel: CHAN42", true⟩], ⟨[("gabtv_a.png", 0)], 1⟩) :=
  (C8_channel_view_extraction fetchPng 1 "addon" "t" "/watch/CHAN42/view/V99/extra" "a"
    ⟨[], 0⟩ (by decide)).trans (by decide)

/-- C7 (amended): for equal-length inputs whose navigation references
all have at least five slash-separated segments, the mapper produces
exactly one item per input triple, in input order (the item labels are
the input titles in order), and every produced item is playable. -/
theorem C7_mapper_count_order_playable (fetch : String → Response) (max_Files : Int)
    (addon_dir : String) (titles video_urls art_urls : List String) (st : CacheState)
    (hlen1 : video_urls.length = titles.length)
    (hlen2 : art_urls.length = titles.length)
    (hwf : ∀ vu ∈ video_urls, 5 ≤ (pySplit vu).length) :
    ∃ items st',
      mapVideos fetch max_Files addon_dir titles video_urls art_urls st = some (items, st') ∧
      items.map TitleItem.label = titles ∧
      ∀ item ∈ items, item.is_playable = true := by
  induction titles generalizing video_urls art_urls st with
  | nil =>
    have h1 : video_urls = [] := List.length_eq_zero.mp hlen1
    have h2 : art_urls = [] := List.length_eq_zero.mp hlen2
    subst h1; subst h2
    exact ⟨[], st, rfl, rfl, by simp⟩
  | cons t ts ih =>
    cases video_urls with
    | nil => simp at hlen1
    | cons vu vus =>
      cases art_urls with
      | nil => simp at hlen2
      | cons au aus =>
        have h5 : 5 ≤ (pySplit vu).length := hwf vu (by simp)
        obtain ⟨c, hc⟩ : ∃ c, (pySplit vu)[2]? = some c :=
          ⟨_, List.getElem?_eq_getElem (by omega)⟩
        obtain ⟨v, hv⟩ : ∃ v, (pySplit vu)[4]? = some v :=
          ⟨_, List.getElem?_eq_getElem (by omega)⟩
        obtain ⟨items, st', heq, hlab, hplay⟩ :=
          ih vus aus (download_fanart fetch max_Files addon_dir au st).2.1
            (by simpa using hlen1) (by simpa using hlen2)
            (fun u hu => hwf u (by simp [hu]))
        simp only [mapVideos] at heq
        refine ⟨⟨t, Route.play_video c v,
          [("thumb", (download_fanart fetch max_Files addon_dir au st).1),
           ("fanart", (download_fanart fetch max_Files addon_dir au st).1),
           ("icon", (download_fanart fetch max_Files addon_dir au st).1)],
          some ("Title: " ++ t ++ "\nChannel: " ++ c), true⟩ :: items, st', ?_, ?_, ?_⟩
        · simp only [mapVideos, List.zip_cons_cons]
          simp only [__map_videos, hc, hv, heq]
        · simp [hlab]
        · intro item hi
          rcases List.mem_cons.mp hi with h | h
          · subst h; rfl
          · exact hplay item h

theorem C7_mapper_count_order_playable_witness :
    ∃ items st',
      mapVideos fetchPng 1 "addon" ["t1", "t2"]
        ["/c/CH1/v/VW1/x", "/c/CH2/v/VW2/x"] ["u/a", "u/b"] ⟨[], 0⟩ = some (items, st') ∧
      items.map TitleItem.label = ["t1", "t2"] ∧
      ∀ item ∈ items, item.is_playable = true :=
  C7_mapper_count_order_playable fetchPng 1 "addon" ["t1", "t2"]
    ["/c/CH1/v/VW1/x", "/c/CH2/v/VW2/x"] ["u/a", "u/b"] ⟨[], 0⟩ rfl rfl (by decide)


theorem revDropExt_append (l r : List Char) (hl : '.' ∉ l) :
    revDropExt (l ++ '.' :: r) = some r := by
  induction l with
  | nil => simp [revDropExt]
  | cons c cs ih =>
    have hc : c ≠ '.' := fun h => hl (h ▸ List.mem_cons_self c cs)
    simp only [List.cons_append, revDropExt, if_neg hc]
    exact ih fun h => hl (List.mem_cons_of_mem _ h)

theorem splitextRoot_gabtv (key ext : String) (hext : '.' ∉ ext.data) :
    splitextRoot ("gabtv_" ++ key ++ "." ++ ext) = "gabtv_" ++ key := by
  have hrev : ("gabtv_" ++ key ++ "." ++ ext).data.reverse =
      ext.data.reverse ++ '.' :: ("gabtv_" ++ key).data.reverse := by
    simp [String.data_append]
  have hg : 'g' ∈ ("gabtv_" ++ key).data.reverse := by
    rw [List.mem_reverse]
    simp [String.data_append]
  have hrde : revDropExt (ext.data.reverse ++ '.' :: ("gabtv_" ++ key).data.reverse) =
      some (("gabtv_" ++ key).data.reverse) :=
    revDropExt_append _ _ (by simpa using hext)
  simp only [splitextRoot, hrev, hrde]
  rw [if_neg ?hall]
  case hall =>
    intro hall
    have := List.all_eq_true.mp hall _ hg
    simp at this
  rw [List.reverse_reverse]

theorem count_eq_of_perm {l₁ l₂ : List (String × Nat)} (h : List.Perm l₁ l₂)
    (x : String × Nat) : l₁.count x = l₂.count x := by
  induction h with
  | nil => rfl
  | cons a _ ih => simp [List.count_cons, ih]
  | swap a b l => simp [List.count_cons]; omega
  | trans _ _ ih1 ih2 => exact ih1.trans ih2

theorem not_mem_take_of_max (l : List (String × Nat)) (x : String × Nat) (e : Nat)
    (hsort : l.Pairwise (fun a b => a.2 ≤ b.2))
    (hcount : l.count x = 1)
    (hmax : ∀ y ∈ l, y.2 < x.2 ∨ y = x)
    (he : e < l.length) : x ∉ l.take e := by
  intro hmem
  have hne : l ≠ [] := by rintro rfl; simp at he
  have hdecomp : l.dropLast ++ [l.getLast hne] = l := List.dropLast_concat_getLast hne
  have hlen : l.dropLast.length = l.length - 1 := List.length_dropLast l
  have hte : l.take e = l.dropLast.take e := by
    conv_lhs => rw [← hdecomp]
    rw [List.take_append_eq_append_take]
    rw [show e - l.dropLast.length = 0 by omega, List.take_zero, List.append_nil]
  have hxdl : x ∈ l.dropLast := List.take_subset _ _ (hte ▸ hmem)
  rcases hmax (l.getLast hne) (List.getLast_mem hne) with hlt | hx
  · have hpw : (l.dropLast ++ [l.getLast hne]).Pairwise (fun a b => a.2 ≤ b.2) :=
      hdecomp.symm ▸ hsort
    rw [List.pairwise_append] at hpw
    have := hpw.2.2 x hxdl (l.getLast hne) (by simp)
    omega
  · have hc2 : l.count x = l.dropLast.count x + 1 := by
      conv_lhs => rw [← hdecomp]
      rw [List.count_append, hx]
      simp
    have hdl0 : l.dropLast.count x = 0 := by omega
    exact absurd hxdl (List.count_eq_zero.mp hdl0)

theorem evict_append_fresh (max_Files : Int) (files : List (String × Nat))
    (nm : String) (clk : Nat)
    (hpos : 1 ≤ max_Files)
    (hfresh : ∀ f ∈ files, f.1 ≠ nm)
    (hclk : ∀ f ∈ files, f.2 < clk) :
    ∃ rest, evict max_Files (files ++ [(nm, clk)]) = rest ++ [(nm, clk)] ∧
      ∀ f ∈ rest, f ∈ files := by
  have hxnotin : (nm, clk) ∉ files := fun h => absurd (hclk _ h) (lt_irrefl _)
  have hcount : (files ++ [(nm, clk)]).count (nm, clk) = 1 := by
    rw [List.count_append, List.count_eq_zero_of_not_mem hxnotin]
    simp
  have hmax : ∀ y ∈ files ++ [(nm, clk)], y.2 < clk ∨ y = (nm, clk) := by
    intro y hy
    rcases List.mem_append.mp hy with h | h
    · exact Or.inl (hclk y h)
    · right; simpa using h
  have hlen1 : 1 ≤ (files ++ [(nm, clk)]).length := by simp
  have hebound : pySliceEnd (sorted_ls (files ++ [(nm, clk)])).length
      (((sorted_ls (files ++ [(nm, clk)])).length : Int) - max_Files) <
      (sorted_ls (files ++ [(nm, clk)])).length := by
    rw [sorted_ls_length]
    unfold pySliceEnd
    split
    · omega
    · rw [Nat.min_def]
      split <;> omega
  have hsurv : (nm, clk) ∉ pyTake (sorted_ls (files ++ [(nm, clk)]))
      (((sorted_ls (files ++ [(nm, clk)])).length : Int) - max_Files) := by
    unfold pyTake
    exact not_mem_take_of_max _ _ _ (sorted_ls_pairwise _)
      ((count_eq_of_perm (sorted_ls_perm _) _).trans hcount)
      (fun y hy => hmax y (mem_sorted_ls.mp hy))
      hebound
  have hkeep : ∀ d ∈ pyTake (sorted_ls (files ++ [(nm, clk)]))
      (((sorted_ls (files ++ [(nm, clk)])).length : Int) - max_Files), d.1 ≠ nm := by
    intro d hd heq
    have hdW : d ∈ files ++ [(nm, clk)] :=
      mem_sorted_ls.mp (List.take_subset _ _ (by simpa [pyTake] using hd))
    rcases List.mem_append.mp hdW with h | h
    · exact hfresh d h heq
    · simp only [List.mem_singleton] at h
      exact hsurv (h ▸ hd)
  have hany : (pyTake (sorted_ls (files ++ [(nm, clk)]))
      (((sorted_ls (files ++ [(nm, clk)])).length : Int) - max_Files)).any
      (fun d => d.1 = nm) = false :=
    List.any_eq_false.mpr fun d hd => by simpa using hkeep d hd
  refine ⟨files.filter (fun f => !(pyTake (sorted_ls (files ++ [(nm, clk)]))
      (((sorted_ls (files ++ [(nm, clk)])).length : Int) - max_Files)).any
      (fun d => d.1 = f.1)), ?_, fun f hf => List.mem_of_mem_filter hf⟩
  simp [evict, List.filter_append, hany]

/-- C5 (amended): provided cache_size is at least 1, two successive
calls with the same URL — starting from a state with no file cached for
that URL's key, all mtimes below the clock, and an inferred extension
free of dots — perform exactly one network fetch in total: the first
call fetches and writes, the second call is a cache hit that performs
no fetch and returns the same local path. -/
theorem C5_second_call_hits (fetch : String → Response) (max_Files : Int) (addon_dir url : String)
    (st : CacheState)
    (hpos : 1 ≤ max_Files)
    (hmiss : ∀ f ∈ st.files, splitextRoot f.1 ≠ "gabtv_" ++ (pySplit url).getLastD "")
    (hclock : ∀ f ∈ st.files, f.2 < st.clock)
    (hext : '.' ∉ (inferExtension (fetch url)).data) :
    (download_fanart fetch max_Files addon_dir url st).2.2 = true ∧
    (download_fanart fetch max_Files addon_dir url
        (download_fanart fetch max_Files addon_dir url st).2.1).2.2 = false ∧
    (download_fanart fetch max_Files addon_dir url
        (download_fanart fetch max_Files addon_dir url st).2.1).1 =
      (download_fanart fetch max_Files addon_dir url st).1 := by
  have hroot : splitextRoot ("gabtv_" ++ (pySplit url).getLastD "" ++ "." ++
      inferExtension (fetch url)) = "gabtv_" ++ (pySplit url).getLastD "" :=
    splitextRoot_gabtv _ _ hext
  have hfind1 : st.files.find?
      (fun s => splitextRoot s.1 = "gabtv_" ++ (pySplit url).getLastD "") = none :=
    List.find?_eq_none.mpr fun f hf => by simpa using hmiss f hf
  have hfresh : ∀ f ∈ st.files, f.1 ≠ "gabtv_" ++ (pySplit url).getLastD "" ++ "." ++
      inferExtension (fetch url) := by
    intro f hf heq
    exact hmiss f hf (by rw [heq, hroot])
  have hwritten : st.files.filter (fun f => f.1 ≠ "gabtv_" ++ (pySplit url).getLastD "" ++ "." ++
      inferExtension (fetch url)) = st.files :=
    List.filter_eq_self.mpr fun f hf => by simpa using hfresh f hf
  have hcall1 : download_fanart fetch max_Files addon_dir url st =
      (pathJoin (pathJoin (pathJoin addon_dir "resources") "thumbnails")
        ("gabtv_" ++ (pySplit url).getLastD "" ++ "." ++ inferExtension (fetch url)),
       ⟨evict max_Files (st.files ++ [("gabtv_" ++ (pySplit url).getLastD "" ++ "." ++
          inferExtension (fetch url), st.clock)]), st.clock + 1⟩, true) := by
    simp only [download_fanart, hfind1, hwritten]
  obtain ⟨rest, hev, hrest⟩ := evict_append_fresh max_Files st.files
    ("gabtv_" ++ (pySplit url).getLastD "" ++ "." ++ inferExtension (fetch url)) st.clock
    hpos hfresh hclock
  have hfind2 : (evict max_Files (st.files ++ [("gabtv_" ++ (pySplit url).getLastD "" ++ "." ++
      inferExtension (fetch url), st.clock)])).find?
      (fun s => splitextRoot s.1 = "gabtv_" ++ (pySplit url).getLastD "") =
      some ("gabtv_" ++ (pySplit url).getLastD "" ++ "." ++ inferExtension (fetch url),
        st.clock) := by
    rw [hev, List.find?_append]
    have h1 : rest.find?
        (fun s => splitextRoot s.1 = "gabtv_" ++ (pySplit url).getLastD "") = none :=
      List.find?_eq_none.mpr fun f hf => by simpa using hmiss f (hrest f hf)
    rw [h1]
    have hroot' := hroot
    simp only [List.getLastD_eq_getLast?] at hroot'
    simp [List.find?_cons, hroot']
  rw [hcall1]
  refine ⟨rfl, ?_, ?_⟩ <;> simp only [download_fanart, hfind2]


theorem C5_second_call_hits_witness :
    (download_fanart fetchPng 1 "addon" "u/k" ⟨[], 0⟩).2.2 = true ∧
    (download_fanart fetchPng 1 "addon" "u/k"
        (download_fanart fetchPng 1 "addon" "u/k" ⟨[], 0⟩).2.1).2.2 = false ∧
    (download_fanart fetchPng 1 "addon" "u/k"
        (download_fanart fetchPng 1 "addon" "u/k" ⟨[], 0⟩).2.1).1 =
      (download_fanart fetchPng 1 "addon" "u/k" ⟨[], 0⟩).1 :=
  C5_second_call_hits fetchPng 1 "addon" "u/k" ⟨[], 0⟩ (by decide) (by decide) (by decide)
    (by decide)
